/-
Verification of the daily simulation core of the Last-Mile-Fulfilment-Optimization
repository: a shallow embedding in Lean 4 of the inventory ledger
(data_simulation/core/inventory.py), the shipment pipeline
(data_simulation/core/shipments.py), the orchestrator loop
(data_simulation/backfill.py) and the checkpoint serializer
(data_simulation/state/state_manager.py), together with theorems settling the
specification's claims about them.

Modelling conventions:
  * Calendar dates are day ordinals (Int); `timedelta(days=n)` is `+ n`.
  * Python floats are modelled as rationals; `round(x, 2)` as half-up rounding
    to two decimals (the reachable values in the claims never sit on the
    half-even / half-up boundary).
  * numpy's seeded Generator is modelled as a pair of adversarial streams
    (integers and floats) with explicit positions, threaded through every
    draw exactly where the source draws: `rng.integers(lo, hi)` yields a value
    in [lo, hi); `int(rng.normal(mean, std))` yields mean plus an arbitrary
    stream integer (Gaussian support is all of ℝ, truncation any integer);
    `rng.random()` yields an arbitrary stream rational.
  * Python dicts keyed by (warehouse_id, product_id) are association lists in
    insertion order; lookup is first match, assignment replaces the binding in
    place or appends.
-/
import Mathlib

namespace Fulfilment

/-- A (warehouse_id, product_id) composite key, as used throughout the core. -/
abbrev Cell := String × String

/-- One entry of `inventory_state`: the per-cell carried-over record
{closing_stock, units_on_order, avg_daily_demand} (inventory.py lines 35-39). -/
structure InvRecord where
  closing_stock : Int
  units_on_order : Int
  avg_daily_demand : ℚ
deriving Repr, DecidableEq, Inhabited

/-- The product dimension fields the core reads (dim_product columns used by
inventory.py and shipments.py). -/
structure Product where
  product_id : String
  category : String
  cost_price : ℚ
  safety_stock : Int
  reorder_point : Int
deriving Repr, DecidableEq, Inhabited

/-- The supplier dimension fields the pipeline reads (dim_supplier columns used
by shipments.py); `product_categories` is the comma-split, stripped list. -/
structure Supplier where
  supplier_id : String
  product_categories : List String
  average_lead_time : Int
  lead_time_std_dev : ℚ
  reliability_score : ℚ
deriving Repr, DecidableEq, Inhabited

/-- A shipment row (shipments.py lines 96-112).  The source's
`shipment_id = f"SHP-{date}-{counter:05d}"` string is modelled as the
(date, counter) pair that determines it; `created_at`, `updated_at` and
`batch_id` (pure timestamps/labels derived from the date) are elided. -/
structure Shipment where
  shipment_id : Int × Nat
  supplier_id : String
  warehouse_id : String
  product_id : String
  quantity : Int
  shipment_cost : ℚ
  shipment_date : Int
  expected_arrival_date : Int
  actual_arrival_date : Int
  delay_days : Int
  delay_flag : Bool
deriving Repr, DecidableEq, Inhabited

/-- One row of fact_inventory_snapshot (inventory.py lines 160-179);
`created_at`/`updated_at`/`batch_id` (derived from the date alone) elided. -/
structure SnapshotRow where
  snapshot_date : Int
  warehouse_id : String
  product_id : String
  opening_stock : Int
  units_sold : Int
  units_received : Int
  units_returned : Int
  closing_stock : Int
  stockout_flag : Bool
  below_safety_stock_flag : Bool
  reorder_triggered_flag : Bool
  units_on_order : Int
  days_of_supply : ℚ
  holding_cost : ℚ
  inventory_value : ℚ
deriving Repr, DecidableEq, Inhabited

/-- The seeded numpy Generator, modelled as two adversarial value streams with
positions.  Every draw in the source consumes the next stream value. -/
structure Rng where
  ints : Nat → Int
  floats : Nat → ℚ
  ipos : Nat
  fpos : Nat

/-- Pop the next integer-stream value. -/
def Rng.nextInt (r : Rng) : Int × Rng :=
  (r.ints r.ipos, { r with ipos := r.ipos + 1 })

/-- `rng.integers(lo, hi)`: a draw in [lo, hi) (numpy half-open convention);
the adversarial stream value is folded into the range by euclidean remainder. -/
def Rng.integers (lo hi : Int) (r : Rng) : Int × Rng :=
  let (v, r1) := r.nextInt
  (lo + v % (hi - lo), r1)

/-- `int(rng.normal(mean, std))`: the nominal mean plus an arbitrary integer
noise from the stream (a truncated Gaussian draw can be any integer). -/
def Rng.normalInt (mean : Int) (_std : ℚ) (r : Rng) : Int × Rng :=
  let (v, r1) := r.nextInt
  (mean + v, r1)

/-- `rng.random()`: an arbitrary rational from the float stream. -/
def Rng.randomQ (r : Rng) : ℚ × Rng :=
  (r.floats r.fpos, { r with fpos := r.fpos + 1 })

/-- config.constants REORDER_QUANTITY_RANGE = (50, 200). -/
def REORDER_QTY_LO : Int := 50

/-- Upper end (exclusive) of REORDER_QUANTITY_RANGE. -/
def REORDER_QTY_HI : Int := 200

/-- config.constants INITIAL_STOCK_RANGE = (50, 500). -/
def INITIAL_STOCK_LO : Int := 50

/-- Upper end (exclusive) of INITIAL_STOCK_RANGE. -/
def INITIAL_STOCK_HI : Int := 500

/-- config.constants HOLDING_COST_RATE = 0.001. -/
def HOLDING_COST_RATE : ℚ := 1 / 1000

/-- config.constants SHIPMENT_BASE_COST = 25.00. -/
def SHIPMENT_BASE_COST : ℚ := 25

/-- config.constants SHIPMENT_COST_PER_UNIT = 0.50. -/
def SHIPMENT_COST_PER_UNIT : ℚ := 1 / 2

/-- Python `round(x, 2)` on the rational values reachable here. -/
def round2 (x : ℚ) : ℚ := ((⌊x * 100 + 1 / 2⌋ : Int) : ℚ) / 100

/-- utils/cost.py calculate_shipment_cost. -/
def calculate_shipment_cost (quantity : Int) : ℚ :=
  round2 (SHIPMENT_BASE_COST + quantity * SHIPMENT_COST_PER_UNIT)

/-- Dict lookup on the (warehouse, product)-keyed inventory map. -/
def lookupA (m : List (Cell × InvRecord)) (k : Cell) : Option InvRecord :=
  (m.find? (fun e => e.1 = k)).map (fun e => e.2)

/-- Dict assignment on the inventory map: replace the binding in place, or
append a fresh one (python dict insertion-order semantics). -/
def updateA (m : List (Cell × InvRecord)) (k : Cell) (v : InvRecord) :
    List (Cell × InvRecord) :=
  match m with
  | [] => [(k, v)]
  | (k1, v1) :: rest =>
      if k1 = k then (k, v) :: rest else (k1, v1) :: updateA rest k v

/-- shipments.py lines 39-46: `supplier_by_category.get(category, [])` — the
suppliers listing `cat`, in supplier order, with multiplicity equal to the
number of times the supplier lists the category. -/
def availableSuppliers (suppliers : List Supplier) (cat : String) :
    List Supplier :=
  suppliers.flatMap
    (fun s => (s.product_categories.filter (fun c => c = cat)).map (fun _ => s))

/-- `products_df.set_index("product_id").to_dict("index").get(pid)`:
pandas set_index keeps the last duplicate, hence the reverse. -/
def lookupProduct (products : List Product) (pid : String) : Option Product :=
  products.reverse.find? (fun p => p.product_id = pid)

/-- Accumulator of the shipment-creation loop (shipments.py lines 50-116). -/
structure ShipAcc where
  new_shipments : List Shipment
  counter : Nat
  rng : Rng

/-- The body of shipments.py's per-cell loop (lines 53-116): create a shipment
when `closing_stock <= reorder_point and units_on_order > 0`, skipping cells
with no product row or no eligible supplier. -/
def shipCell (current_date : Int) (products : List Product)
    (suppliers : List Supplier) (e : Cell × InvRecord) (acc : ShipAcc) :
    ShipAcc :=
  match lookupProduct products e.1.2 with
  | none => acc
  | some product =>
      if e.2.closing_stock ≤ product.reorder_point ∧ e.2.units_on_order > 0 then
        let avail := availableSuppliers suppliers product.category
        if avail.isEmpty then acc
        else
          let p1 := Rng.integers 0 avail.length acc.rng
          let supplier := avail.getD p1.1.toNat default
          let p2 := Rng.integers REORDER_QTY_LO REORDER_QTY_HI p1.2
          let quantity := p2.1
          let base_lead := supplier.average_lead_time
          let p3 := Rng.normalInt base_lead supplier.lead_time_std_dev p2.2
          let actual_lead0 := max 1 p3.1
          let expected_arrival := current_date + base_lead
          let p4 := Rng.randomQ p3.2
          let miss := p4.1 > supplier.reliability_score
          let p5 := if miss then Rng.integers 1 5 p4.2 else (0, p4.2)
          let actual_lead := if miss then actual_lead0 + p5.1 else actual_lead0
          let actual_arrival := current_date + actual_lead
          let delay_days :=
            if miss then actual_lead - base_lead
            else max 0 (actual_lead0 - base_lead)
          let delay_flag := if miss then true else delay_days > 0
          let shipment : Shipment :=
            { shipment_id := (current_date, acc.counter)
              supplier_id := supplier.supplier_id
              warehouse_id := e.1.1
              product_id := e.1.2
              quantity := quantity
              shipment_cost := calculate_shipment_cost quantity
              shipment_date := current_date
              expected_arrival_date := expected_arrival
              actual_arrival_date := actual_arrival
              delay_days := delay_days
              delay_flag := delay_flag }
          { new_shipments := acc.new_shipments ++ [shipment]
            counter := acc.counter + 1
            rng := p5.2 }
      else acc

/-- The creation loop folded over `inventory_state.items()` in order. -/
def shipLoop (current_date : Int) (products : List Product)
    (suppliers : List Supplier) : List (Cell × InvRecord) → ShipAcc → ShipAcc
  | [], acc => acc
  | e :: rest, acc =>
      shipLoop current_date products suppliers rest
        (shipCell current_date products suppliers e acc)

/-- Result of generate_daily_shipments.  The source returns
(shipments_df, arriving_df, pending_shipments, shipment_counter); the
inventory map is carried in the result as well so that the absence of any
heap effect on it is a stated, provable fact rather than a typing accident. -/
structure ShipResult where
  new_shipments : List Shipment
  arriving : List Shipment
  pending : List Shipment
  counter : Nat
  rng : Rng
  inventory_state : List (Cell × InvRecord)

/-- shipments.py generate_daily_shipments: create shipments for every cell
whose state passes the gate, append them to the pending queue, then split the
queue into today's arrivals (actual_arrival_date = today) and the remaining
pending shipments (actual_arrival_date > today). -/
def generate_daily_shipments (current_date : Int) (products : List Product)
    (suppliers : List Supplier) (inventory_state : List (Cell × InvRecord))
    (pending_shipments : List Shipment) (rng : Rng) (shipment_counter : Nat) :
    ShipResult :=
  let acc := shipLoop current_date products suppliers inventory_state
    { new_shipments := [], counter := shipment_counter, rng := rng }
  let queue := pending_shipments ++ acc.new_shipments
  { new_shipments := acc.new_shipments
    arriving := queue.filter (fun s => s.actual_arrival_date = current_date)
    pending := queue.filter (fun s => s.actual_arrival_date > current_date)
    counter := acc.counter
    rng := acc.rng
    inventory_state := inventory_state }

/-- inventory.py lines 85-93: units received per cell from today's arriving
shipments (groupby-sum over warehouse_id, product_id). -/
def unitsReceived (arriving : List Shipment) (k : Cell) : Int :=
  ((arriving.filter
    (fun s => s.warehouse_id = k.1 ∧ s.product_id = k.2)).map
      (fun s => s.quantity)).sum

/-- The exogenous demand-side aggregates of one simulated day: units sold per
cell (from orders with status Delivered/Shipped/Processing, inventory.py
lines 63-83) and units returned per cell (return-flagged orders, lines
96-111).  The order tables themselves are outside the claims; the ledger
consumes only these two aggregates. -/
structure DayInput where
  sold : Cell → Int
  returned : Cell → Int

instance : Inhabited DayInput := ⟨⟨fun _ => 0, fun _ => 0⟩⟩

/-- The per-cell body of inventory.py's snapshot loop (lines 116-186),
producing the snapshot row, the updated carried-over record, and the rng
after the optional reorder-quantity draw. -/
def cellStep (current_date : Int) (input : DayInput)
    (arriving : List Shipment) (wh : String) (product : Product)
    (prevOpt : Option InvRecord) (rng : Rng) :
    SnapshotRow × InvRecord × Rng :=
  let key : Cell := (wh, product.product_id)
  let prev := prevOpt.getD ⟨100, 0, 0⟩
  let opening_stock := prev.closing_stock
  let units_sold := input.sold key
  let units_received := unitsReceived arriving key
  let units_returned := input.returned key
  let closing_stock :=
    max 0 (opening_stock - units_sold + units_received + units_returned)
  let stockout_flag := closing_stock = 0
  let below_safety := closing_stock < product.safety_stock
  let reorder_triggered :=
    closing_stock ≤ product.reorder_point ∧ prev.units_on_order = 0
  let uoo1 :=
    if units_received > 0 then max 0 (prev.units_on_order - units_received)
    else prev.units_on_order
  let drawn :=
    if reorder_triggered then
      let p := Rng.integers REORDER_QTY_LO REORDER_QTY_HI rng
      (uoo1 + p.1, p.2)
    else (uoo1, rng)
  let units_on_order := drawn.1
  let avg_demand :=
    prev.avg_daily_demand * (1 - 1 / 10) + (units_sold : ℚ) * (1 / 10)
  let dos0 :=
    if avg_demand > 0 then round2 ((closing_stock : ℚ) / avg_demand)
    else 9999 / 100
  let days_of_supply := min (9999 / 100) dos0
  let row : SnapshotRow :=
    { snapshot_date := current_date
      warehouse_id := wh
      product_id := product.product_id
      opening_stock := opening_stock
      units_sold := units_sold
      units_received := units_received
      units_returned := units_returned
      closing_stock := closing_stock
      stockout_flag := decide stockout_flag
      below_safety_stock_flag := decide below_safety
      reorder_triggered_flag := decide reorder_triggered
      units_on_order := units_on_order
      days_of_supply := days_of_supply
      holding_cost :=
        round2 ((closing_stock : ℚ) * product.cost_price * HOLDING_COST_RATE)
      inventory_value := round2 ((closing_stock : ℚ) * product.cost_price) }
  (row, ⟨closing_stock, units_on_order, avg_demand⟩, drawn.2)

/-- inventory.py's snapshot loop over `WAREHOUSE_IDS × products_df` in order,
threading the inventory map (state is written back per cell, line 182) and
the rng. -/
def snapLoop (current_date : Int) (input : DayInput)
    (arriving : List Shipment) :
    List (String × Product) → List (Cell × InvRecord) → Rng →
    List SnapshotRow × List (Cell × InvRecord) × Rng
  | [], st, rng => ([], st, rng)
  | (wh, product) :: rest, st, rng =>
      let key : Cell := (wh, product.product_id)
      let step := cellStep current_date input arriving wh product
        (lookupA st key) rng
      let tail := snapLoop current_date input arriving rest
        (updateA st key step.2.1) step.2.2
      (step.1 :: tail.1, tail.2)

/-- The iteration grid `for wh_id in WAREHOUSE_IDS: for product in products`. -/
def snapCells (warehouses : List String) (products : List Product) :
    List (String × Product) :=
  warehouses.flatMap (fun wh => products.map (fun p => (wh, p)))

/-- inventory.py generate_daily_inventory_snapshot: one snapshot row per
(warehouse, product) cell, updating the carried-over inventory map in place. -/
def generate_daily_inventory_snapshot (current_date : Int)
    (warehouses : List String) (products : List Product) (input : DayInput)
    (arriving : List Shipment) (inventory_state : List (Cell × InvRecord))
    (rng : Rng) :
    List SnapshotRow × List (Cell × InvRecord) × Rng :=
  snapLoop current_date input arriving (snapCells warehouses products)
    inventory_state rng

/-- state_manager.py SimulationState: inventory map, pending queue, and the
four counters. -/
structure SimState where
  inventory_state : List (Cell × InvRecord)
  pending_shipments : List Shipment
  shipment_counter : Nat
  delivery_counter : Nat
  assignment_counter : Nat
  day_counter : Nat
deriving Repr, DecidableEq, Inhabited

/-- The static dimension inputs of a run (read-only for the core). -/
structure Params where
  warehouses : List String
  products : List Product
  suppliers : List Supplier

/-- The observable output tables of one simulated day relevant to the claims:
fact_shipments (new shipments), the arriving-today extraction, and
fact_inventory_snapshot. -/
structure DayResult where
  date : Int
  shipments : List Shipment
  arriving : List Shipment
  snapshot : List SnapshotRow
deriving Repr, DecidableEq, Inhabited

/-- One iteration of backfill.py's day loop (lines 123-189): bump the day
counter, run the shipment pipeline on the carried-over (post-ledger) state,
then the inventory ledger on the arriving shipments. -/
def runDay (P : Params) (d : Int) (input : DayInput) (st : SimState)
    (rng : Rng) : DayResult × SimState × Rng :=
  let sh := generate_daily_shipments d P.products P.suppliers
    st.inventory_state st.pending_shipments rng st.shipment_counter
  let inv := generate_daily_inventory_snapshot d P.warehouses P.products
    input sh.arriving sh.inventory_state sh.rng
  (⟨d, sh.new_shipments, sh.arriving, inv.1⟩,
   { inventory_state := inv.2.1
     pending_shipments := sh.pending
     shipment_counter := sh.counter
     delivery_counter := st.delivery_counter
     assignment_counter := st.assignment_counter
     day_counter := st.day_counter + 1 },
   inv.2.2)

/-- backfill.py's sequential day loop from date `d` over the given per-day
exogenous inputs. -/
def runFrom (P : Params) (d : Int) (st : SimState) (rng : Rng) :
    List DayInput → List DayResult × SimState × Rng
  | [] => ([], st, rng)
  | inp :: rest =>
      let step := runDay P d inp st rng
      let tail := runFrom P (d + 1) step.2.1 step.2.2 rest
      (step.1 :: tail.1, tail.2)

/-- The simulation state after the first `k` days of a run. -/
def stateAfter (P : Params) (d : Int) (st : SimState) (rng : Rng)
    (inputs : List DayInput) (k : Nat) : SimState :=
  (runFrom P d st rng (inputs.take k)).2.1

/-- The rng state after the first `k` days of a run. -/
def rngAfter (P : Params) (d : Int) (st : SimState) (rng : Rng)
    (inputs : List DayInput) (k : Nat) : Rng :=
  (runFrom P d st rng (inputs.take k)).2.2

/-- The day-k step of a run: the runDay call the orchestrator makes on date
d + k, applied to the carried-over state and rng. -/
def dayStep (P : Params) (d : Int) (st : SimState) (rng : Rng)
    (inputs : List DayInput) (k : Nat) : DayResult × SimState × Rng :=
  runDay P (d + k) (inputs.getD k default)
    (stateAfter P d st rng inputs k) (rngAfter P d st rng inputs k)

/-- Embeds inventory.py initialize_inventory: one record per
(warehouse, product) with a drawn initial stock in INITIAL_STOCK_RANGE,
no units on order, zero demand baseline. -/
def init_inventory (warehouses : List String) (products : List Product) :
    Rng → List (String × Product) → List (Cell × InvRecord) × Rng
  | rng, [] => ([], rng)
  | rng, (wh, p) :: rest =>
      let draw := Rng.integers INITIAL_STOCK_LO INITIAL_STOCK_HI rng
      let tail := init_inventory warehouses products draw.2 rest
      (((wh, p.product_id), ⟨draw.1, 0, 0⟩) :: tail.1, tail.2)

/-- A freshly initialized SimulationState (state_manager defaults plus
initialize_inventory), as built by backfill.py lines 102-105. -/
def initState (P : Params) (rng : Rng) : SimState × Rng :=
  let inv := init_inventory P.warehouses P.products rng
    (snapCells P.warehouses P.products)
  ({ inventory_state := inv.1
     pending_shipments := []
     shipment_counter := 1
     delivery_counter := 1
     assignment_counter := 1
     day_counter := 0 }, inv.2)

/-! ### Checkpoint serialization (state_manager.py lines 30-96)

`to_dict` flattens the tuple-keyed inventory map to `"{wh}|{pid}"` string keys
and stringifies the date fields of pending shipments (ISO-8601); `from_dict`
splits the keys back and parses the dates.  Strings are handled at the
character-list level; an ISO date string is modelled by its digit encoding
(`Nat.digits`), an injective textual encoding with an exact parse, applied to
the day ordinal with an explicit sign. -/

/-- Python `key.split("|")`. -/
def splitBar : List Char → List (List Char)
  | [] => [[]]
  | c :: rest =>
      if c = '|' then [] :: splitBar rest
      else
        match splitBar rest with
        | [] => [[c]]
        | p :: ps => (c :: p) :: ps

/-- The flattened composite key `"{warehouse_id}|{product_id}"`. -/
def serKey (k : Cell) : List Char := k.1.data ++ '|' :: k.2.data

/-- `wh_id, pid = key.split("|")`: fails (python: unpack error) unless the
split has exactly two parts. -/
def parseKey (l : List Char) : Option Cell :=
  match splitBar l with
  | [a, b] => some (String.mk a, String.mk b)
  | _ => none

/-- The ISO-8601 rendering of a day ordinal: sign and decimal digits. -/
def serDate (d : Int) : Bool × List Nat :=
  (decide (0 ≤ d), Nat.digits 10 d.natAbs)

/-- `date.fromisoformat` on a rendered day ordinal. -/
def parseDate (e : Bool × List Nat) : Int :=
  if e.1 then ((Nat.ofDigits 10 e.2 : Nat) : Int)
  else -((Nat.ofDigits 10 e.2 : Nat) : Int)

/-- A pending-queue entry as it sits in the checkpoint: identical to
`Shipment` except that the three date fields are ISO strings. -/
structure SerShipment where
  shipment_id : Int × Nat
  supplier_id : String
  warehouse_id : String
  product_id : String
  quantity : Int
  shipment_cost : ℚ
  shipment_date : Bool × List Nat
  expected_arrival_date : Bool × List Nat
  actual_arrival_date : Bool × List Nat
  delay_days : Int
  delay_flag : Bool
deriving Repr, DecidableEq

/-- to_dict's per-shipment stringification (state_manager.py line 41). -/
def serShipment (s : Shipment) : SerShipment :=
  { shipment_id := s.shipment_id
    supplier_id := s.supplier_id
    warehouse_id := s.warehouse_id
    product_id := s.product_id
    quantity := s.quantity
    shipment_cost := s.shipment_cost
    shipment_date := serDate s.shipment_date
    expected_arrival_date := serDate s.expected_arrival_date
    actual_arrival_date := serDate s.actual_arrival_date
    delay_days := s.delay_days
    delay_flag := s.delay_flag }

/-- from_dict's per-shipment date parsing (state_manager.py lines 66-79). -/
def parseShipment (s : SerShipment) : Shipment :=
  { shipment_id := s.shipment_id
    supplier_id := s.supplier_id
    warehouse_id := s.warehouse_id
    product_id := s.product_id
    quantity := s.quantity
    shipment_cost := s.shipment_cost
    shipment_date := parseDate s.shipment_date
    expected_arrival_date := parseDate s.expected_arrival_date
    actual_arrival_date := parseDate s.actual_arrival_date
    delay_days := s.delay_days
    delay_flag := s.delay_flag }

/-- The flat checkpoint record produced by SimulationState.to_dict. -/
structure Checkpoint where
  inventory_state : List (List Char × InvRecord)
  pending_shipments : List SerShipment
  shipment_counter : Nat
  delivery_counter : Nat
  assignment_counter : Nat
  day_counter : Nat
deriving Repr, DecidableEq

/-- SimulationState.to_dict (state_manager.py lines 30-51). -/
def to_dict (st : SimState) : Checkpoint :=
  { inventory_state := st.inventory_state.map (fun e => (serKey e.1, e.2))
    pending_shipments := st.pending_shipments.map serShipment
    shipment_counter := st.shipment_counter
    delivery_counter := st.delivery_counter
    assignment_counter := st.assignment_counter
    day_counter := st.day_counter }

/-- Restore one flattened inventory entry, failing on a malformed key. -/
def parseEntry (e : List Char × InvRecord) : Option (Cell × InvRecord) :=
  (parseKey e.1).map (fun k => (k, e.2))

/-- Restore the whole flattened inventory map, in order. -/
def parseEntries :
    List (List Char × InvRecord) → Option (List (Cell × InvRecord))
  | [] => some []
  | e :: rest =>
      match parseEntry e, parseEntries rest with
      | some x, some xs => some (x :: xs)
      | _, _ => none

/-- SimulationState.from_dict (state_manager.py lines 53-86). -/
def from_dict (c : Checkpoint) : Option SimState :=
  (parseEntries c.inventory_state).map (fun inv =>
    { inventory_state := inv
      pending_shipments := c.pending_shipments.map parseShipment
      shipment_counter := c.shipment_counter
      delivery_counter := c.delivery_counter
      assignment_counter := c.assignment_counter
      day_counter := c.day_counter })

/-- SimulationState.to_json: `json.dumps(self.to_dict(), default=str)` — the
JSON text layer is the python standard library's, outside this repository and
lossless on the flat record; it is modelled as the identity on `Checkpoint`,
so to_json produces the same flat record as to_dict. -/
def to_json (st : SimState) : Checkpoint := to_dict st

/-- SimulationState.from_json: `from_dict(json.loads(json_str))`, with the
text layer modelled as the identity on `Checkpoint`. -/
def from_json (c : Checkpoint) : Option SimState := from_dict c

/-! ### Concrete fixtures

A one-warehouse, one-product, one-supplier configuration, with deterministic
rng streams, used to evaluate the embedded core on explicit runs. -/

/-- An rng whose integer stream reads off the given list (0 afterwards) and
whose float stream is constantly 0. -/
def rngOf (l : List Int) : Rng :=
  { ints := fun n => l.getD n 0
    floats := fun _ => 0
    ipos := 0
    fpos := 0 }

/-- Fixture product: reorder_point 20, safety_stock 10. -/
def prodA : Product :=
  { product_id := "P1", category := "Electronics", cost_price := 10
    safety_stock := 10, reorder_point := 20 }

/-- Fixture supplier: nominal lead 4 days, perfectly reliable. -/
def supA : Supplier :=
  { supplier_id := "S1", product_categories := ["Electronics"]
    average_lead_time := 4, lead_time_std_dev := 1, reliability_score := 1 }

/-- Fixture dimension inputs: one warehouse, one product, one supplier. -/
def paramsA : Params :=
  { warehouses := ["W1"], products := [prodA], suppliers := [supA] }

/-- Day input selling 45 units of the fixture cell. -/
def inputSell45 : DayInput :=
  { sold := fun k => if k = ("W1", "P1") then 45 else 0
    returned := fun _ => 0 }

/-- Day input with no sales and no returns. -/
def inputZero : DayInput := ⟨fun _ => 0, fun _ => 0⟩

/-- The fixture rng: initial stock 60, then reorder-quantity and pipeline
draws all yielding quantity 100, zero lead-time noise, no reliability miss. -/
def rngA : Rng := rngOf [10, 50, 0, 50, 0, 0, 50, 0]

/-- The initialized fixture state (initial stock 60 for the single cell). -/
def stA : SimState × Rng := initState paramsA rngA

/-- A three-day fixture run: 45 units sold on day 0 (arming a reorder:
closing stock 15 ≤ reorder point 20), then two quiet days. -/
def runA : List DayResult × SimState × Rng :=
  runFrom paramsA 0 stA.1 stA.2 [inputSell45, inputZero, inputZero]

/-- The fixture state after day 0 only (reorder armed, nothing shipped yet). -/
def runA1 : List DayResult × SimState × Rng :=
  runFrom paramsA 0 stA.1 stA.2 [inputSell45]

/-- Total quantity of pending shipments for one cell. -/
def pendingCellSum (l : List Shipment) (k : Cell) : Int :=
  ((l.filter (fun s => s.warehouse_id = k.1 ∧ s.product_id = k.2)).map
    (fun s => s.quantity)).sum

/-- A single pipeline call whose lead-time noise draw is −2: nominal lead 4,
actual lead max(1, 4−2) = 2. -/
def shipCallB : ShipResult :=
  generate_daily_shipments 0 [prodA] [supA]
    [(("W1", "P1"), ⟨15, 100, 0⟩)] [] (rngOf [0, 50, -2]) 1

/-- Scenario fixture (spec §8): opening stock 40, reorder point 20. -/
def invC7 : List (Cell × InvRecord) := [(("W1", "P1"), ⟨40, 0, 0⟩)]

/-- Day input selling 25 units of the fixture cell. -/
def inputSell25 : DayInput :=
  { sold := fun k => if k = ("W1", "P1") then 25 else 0
    returned := fun _ => 0 }

/-- Scenario day 1: 25 units sold, no arrivals, reorder quantity draw 100. -/
def snapC7a : List SnapshotRow × List (Cell × InvRecord) × Rng :=
  generate_daily_inventory_snapshot 1 ["W1"] [prodA] inputSell25 []
    invC7 (rngOf [50])

/-- Scenario day 2: zero sales, zero receipts, zero returns. -/
def snapC7b : List SnapshotRow × List (Cell × InvRecord) × Rng :=
  generate_daily_inventory_snapshot 2 ["W1"] [prodA] inputZero []
    snapC7a.2.1 snapC7a.2.2

/-- A concrete pending shipment for checkpoint round-trip evaluation. -/
def shipC8 : Shipment :=
  { shipment_id := (1, 1), supplier_id := "S1", warehouse_id := "W1"
    product_id := "P1", quantity := 100, shipment_cost := 75
    shipment_date := 1, expected_arrival_date := 5, actual_arrival_date := 5
    delay_days := 0, delay_flag := false }

/-- A concrete SimulationState for checkpoint round-trip evaluation. -/
def stC8 : SimState :=
  { inventory_state := [(("W1", "P1"), ⟨15, 100, 9 / 2⟩)]
    pending_shipments := [shipC8]
    shipment_counter := 2
    delivery_counter := 3
    assignment_counter := 4
    day_counter := 5 }

/-- The snapshot row of a given cell: first row matching the
(warehouse_id, product_id) pair. -/
def rowFor (rows : List SnapshotRow) (w pid : String) : Option SnapshotRow :=
  rows.find? (fun r => r.warehouse_id = w ∧ r.product_id = pid)

/-- What generate_daily_shipments guarantees of every shipment it creates on
day `d`: it is dated `d`, arrives no earlier than `d + 1` (the actual lead is
floored at 1 day and the reliability penalty only adds days), and its
supplier serves the product's category, with expected_arrival_date =
shipment_date + that supplier's nominal average lead time. -/
def createdProp (d : Int) (ps : List Product) (ss : List Supplier)
    (s : Shipment) : Prop :=
  s.shipment_date = d ∧ d + 1 ≤ s.actual_arrival_date ∧
    ∃ prod sup, lookupProduct ps s.product_id = some prod ∧
      sup ∈ availableSuppliers ss prod.category ∧
      s.supplier_id = sup.supplier_id ∧
      s.expected_arrival_date = d + sup.average_lead_time

/-! ## Theorems -/

theorem getD_mem_of_lt {α : Type} (l : List α) (n : Nat) (dflt : α)
    (h : n < l.length) : l.getD n dflt ∈ l := by
  induction l generalizing n with
  | nil => simp at h
  | cons a t ih =>
      cases n with
      | zero => simp
      | succ m =>
          simp only [List.getD_cons_succ, List.mem_cons]
          exact Or.inr (ih m (by simpa using h))

theorem lookupA_updateA_self (m : List (Cell × InvRecord)) (k : Cell)
    (v : InvRecord) : lookupA (updateA m k v) k = some v := by
  induction m with
  | nil => simp [updateA, lookupA]
  | cons e rest ih =>
      obtain ⟨k1, v1⟩ := e
      by_cases h : k1 = k
      · simp [updateA, h, lookupA]
      · simpa [updateA, h, lookupA] using ih

theorem lookupA_updateA_ne (m : List (Cell × InvRecord)) (k k' : Cell)
    (v : InvRecord) (h : k' ≠ k) :
    lookupA (updateA m k' v) k = lookupA m k := by
  induction m with
  | nil => simp [updateA, lookupA, h]
  | cons e rest ih =>
      obtain ⟨k1, v1⟩ := e
      show lookupA
        (if k1 = k' then (k', v) :: rest else (k1, v1) :: updateA rest k' v) k
          = _
      by_cases h1 : k1 = k'
      · rw [if_pos h1]
        subst h1
        simp [lookupA, h]
      · rw [if_neg h1]
        by_cases h2 : k1 = k
        · simp [lookupA, h2]
        · simp only [lookupA] at ih ⊢
          rw [List.find?_cons_of_neg _ (by simp [h2]),
            List.find?_cons_of_neg _ (by simp [h2])]
          exact ih

theorem lookupA_mem (m : List (Cell × InvRecord)) (k : Cell) (v : InvRecord)
    (h : lookupA m k = some v) : (k, v) ∈ m := by
  unfold lookupA at h
  cases hf : m.find? (fun e => e.1 = k) with
  | none => rw [hf] at h; simp at h
  | some e =>
      rw [hf] at h
      simp only [Option.map_some', Option.some.injEq] at h
      have hm := List.mem_of_find?_eq_some hf
      have hp := List.find?_some hf
      simp only [decide_eq_true_eq] at hp
      have : e = (k, v) := by
        obtain ⟨e1, e2⟩ := e
        simp only at hp h
        rw [hp, h]
      rwa [this] at hm

theorem updateA_mem (m : List (Cell × InvRecord)) (k : Cell) (v : InvRecord)
    (e : Cell × InvRecord) (h : e ∈ updateA m k v) :
    e = (k, v) ∨ e ∈ m := by
  induction m with
  | nil => simpa [updateA] using h
  | cons e1 rest ih =>
      obtain ⟨k1, v1⟩ := e1
      by_cases h1 : k1 = k
      · simp only [updateA, h1, if_true, eq_self_iff_true, List.mem_cons] at h
        rcases h with h | h
        · exact Or.inl h
        · exact Or.inr (List.mem_cons_of_mem _ h)
      · simp only [updateA, if_neg h1, List.mem_cons] at h
        rcases h with h | h
        · exact Or.inr (by simp [h])
        · rcases ih h with h2 | h2
          · exact Or.inl h2
          · exact Or.inr (List.mem_cons_of_mem _ h2)

/-- The value of `rng.integers(lo, hi)` lies in [lo, hi). -/
theorem Rng.integers_bounds (lo hi : Int) (r : Rng) (h : lo < hi) :
    lo ≤ (Rng.integers lo hi r).1 ∧ (Rng.integers lo hi r).1 < hi := by
  unfold Rng.integers Rng.nextInt
  dsimp only []
  constructor
  · have := Int.emod_nonneg (r.ints r.ipos) (show hi - lo ≠ 0 by omega)
    omega
  · have := Int.emod_lt_of_pos (r.ints r.ipos) (show 0 < hi - lo by omega)
    omega

theorem shipCell_new_shape (d : Int) (ps : List Product) (ss : List Supplier)
    (ent : Cell × InvRecord) (acc : ShipAcc) :
    (shipCell d ps ss ent acc).new_shipments = acc.new_shipments ∨
      ∃ x, (shipCell d ps ss ent acc).new_shipments =
        acc.new_shipments ++ [x] := by
  unfold shipCell
  cases hp : lookupProduct ps ent.1.2 with
  | none => exact Or.inl rfl
  | some prod =>
      dsimp only []
      by_cases hgate :
          ent.2.closing_stock ≤ prod.reorder_point ∧ ent.2.units_on_order > 0
      · rw [if_pos hgate]
        by_cases hav : (availableSuppliers ss prod.category).isEmpty
        · rw [if_pos hav]
          exact Or.inl rfl
        · rw [if_neg hav]
          exact Or.inr ⟨_, rfl⟩
      · rw [if_neg hgate]
        exact Or.inl rfl

theorem shipCell_mem (d : Int) (ps : List Product) (ss : List Supplier)
    (ent : Cell × InvRecord) (acc : ShipAcc) (s : Shipment)
    (hs : s ∈ (shipCell d ps ss ent acc).new_shipments) :
    s ∈ acc.new_shipments ∨
      (s.warehouse_id = ent.1.1 ∧ s.product_id = ent.1.2 ∧
        s.shipment_date = d ∧ d + 1 ≤ s.actual_arrival_date ∧
        ∃ prod sup, lookupProduct ps ent.1.2 = some prod ∧
          sup ∈ availableSuppliers ss prod.category ∧
          s.supplier_id = sup.supplier_id ∧
          s.expected_arrival_date = d + sup.average_lead_time) := by
  revert hs
  unfold shipCell
  cases hp : lookupProduct ps ent.1.2 with
  | none => exact fun hs => Or.inl hs
  | some prod =>
      dsimp only []
      by_cases hgate :
          ent.2.closing_stock ≤ prod.reorder_point ∧ ent.2.units_on_order > 0
      · rw [if_pos hgate]
        by_cases hav : (availableSuppliers ss prod.category).isEmpty
        · rw [if_pos hav]
          exact fun hs => Or.inl hs
        · rw [if_neg hav]
          have hlen : 0 < (availableSuppliers ss prod.category).length := by
            cases hl : availableSuppliers ss prod.category with
            | nil => rw [hl] at hav; simp at hav
            | cons a t => simp [hl]
          intro hs
          simp only [List.mem_append, List.mem_singleton] at hs
          rcases hs with hs | hs
          · exact Or.inl hs
          · right
            subst hs
            refine ⟨rfl, rfl, rfl, ?_, prod, _, rfl, ?_, rfl, rfl⟩
            · show d + 1 ≤ d + _
              split
              · refine add_le_add_left ?_ d
                refine le_add_of_le_of_nonneg (le_max_left _ _) ?_
                exact le_trans (by decide)
                  (Rng.integers_bounds 1 5 _ (by decide)).1
              · exact add_le_add_left (le_max_left _ _) d
            · apply getD_mem_of_lt
              have hb := Rng.integers_bounds 0
                ((availableSuppliers ss prod.category).length : Int) acc.rng
                (by omega)
              omega
      · rw [if_neg hgate]
        exact fun hs => Or.inl hs

/-- C1: Single-outstanding-order invariant — REFUTED BY THE CODE.  In the
fixture run, correctly initialized (initial stock 60, no orders in flight),
day 0 sells 45 units and arms a reorder (closing stock 15 ≤ reorder point 20,
units_on_order 0 → 100).  The pipeline's creation gate
`closing_stock <= reorder_point and units_on_order > 0` (shipments.py line 59)
then stays true on every following day until an arrival, so it creates a
fresh shipment on day 1 AND another on day 2: after day 2 the pending queue
holds two in-flight shipments for the single cell ("W1", "P1"), violating
the invariant the spec states three times. -/
theorem C1_two_pending_in_flight :
    (runA.2.1.pending_shipments.filter
      (fun s => s.warehouse_id = "W1" ∧ s.product_id = "P1")).length = 2 := by
  decide

/-- C2 counterexample: at the day-0 boundary of the fixture run the cell's
units_on_order is 100 (the ledger's freshly drawn reorder quantity,
inventory.py line 144) while the pending queue is still empty (the pipeline
only creates the shipment on the next day), so units_on_order does not equal
the sum of pending shipment quantities. -/
theorem C2_counterexample :
    (lookupA runA1.2.1.inventory_state ("W1", "P1")).map
        (fun r => r.units_on_order) ≠
      some (pendingCellSum runA1.2.1.pending_shipments ("W1", "P1")) := by
  decide

/-- C4 counterexample: in the fixture run the ledger arms the reorder on
day 0 (snapshot row has reorder_triggered_flag = true) but day 0's
fact_shipments output is empty; the shipment row is created on day 1
(shipment_date = 1).  Creation is lagged one day, not synchronous. -/
theorem C4_counterexample :
    ((runA.1.getD 0 default).snapshot.getD 0 default).reorder_triggered_flag
        = true ∧
      (runA.1.getD 0 default).shipments = [] ∧
      ((runA.1.getD 1 default).shipments.map (fun s => s.shipment_date))
        = [1] := by
  decide

/-- C5 counterexample: a pipeline call whose Gaussian lead-time draw lands 2
below the nominal lead 4 produces actual_lead = max(1, 4−2) = 2
(shipments.py line 76), so actual_arrival_date (2) < expected_arrival_date
(4): lead-time noise can deflate the arrival below expected. -/
theorem C5_counterexample :
    (shipCallB.new_shipments.map (fun s => s.shipment_id)) = [(0, 1)] ∧
      (shipCallB.new_shipments.getD 0 default).actual_arrival_date <
        (shipCallB.new_shipments.getD 0 default).expected_arrival_date := by
  decide

/-- C7: the spec §8 scenario holds on the code.  Opening stock 40,
reorder_point 20, safety_stock 10, 25 units sold on day 1 with reorder
quantity drawn 100: the day-1 snapshot has closing_stock 15,
reorder_triggered = true, units_on_order 100; on day 2 with zero sales,
receipts and returns, closing_stock stays 15 and reorder_triggered is false
because units_on_order > 0 blocks the re-trigger. -/
theorem C7_scenario :
    ((snapC7a.1.getD 0 default).closing_stock = 15 ∧
        (snapC7a.1.getD 0 default).reorder_triggered_flag = true ∧
        (snapC7a.1.getD 0 default).units_on_order = 100) ∧
      ((snapC7b.1.getD 0 default).closing_stock = 15 ∧
        (snapC7b.1.getD 0 default).reorder_triggered_flag = false ∧
        (snapC7b.1.getD 0 default).units_on_order = 100) := by
  decide

/-- C9: determinism.  The embedded daily generation is a pure function of the
dimension inputs, the calendar (start date and per-day exogenous inputs), the
carried-over state and the threaded rng: two runs with identical inputs and
identical seeded generator produce identical output tables, row for row. -/
theorem C9_determinism (P1 P2 : Params) (d1 d2 : Int) (st1 st2 : SimState)
    (r1 r2 : Rng) (in1 in2 : List DayInput)
    (hP : P1 = P2) (hd : d1 = d2) (hst : st1 = st2) (hr : r1 = r2)
    (hin : in1 = in2) :
    runFrom P1 d1 st1 r1 in1 = runFrom P2 d2 st2 r2 in2 := by
  subst hP
  subst hd
  subst hst
  subst hr
  subst hin
  rfl

/-- Witness for C9 at the concrete fixture run. -/
theorem C9_determinism_witness :
    paramsA = paramsA ∧
      runFrom paramsA 0 stA.1 stA.2 [inputSell45] =
        runFrom paramsA 0 stA.1 stA.2 [inputSell45] :=
  ⟨rfl, C9_determinism paramsA paramsA 0 0 stA.1 stA.1 stA.2 stA.2
    [inputSell45] [inputSell45] rfl rfl rfl rfl rfl⟩

/-- C10: frame property of the shipment pipeline.  generate_daily_shipments
returns the inventory map exactly as it received it — the source never
assigns to `inventory_state` (shipments.py only reads it at line 53/59) — so
for every call, every cell's record after the call equals its value before;
only the pending queue, the counter and the rng advance. -/
theorem C10_pipeline_frame (d : Int) (products : List Product)
    (suppliers : List Supplier) (inv : List (Cell × InvRecord))
    (pending : List Shipment) (rng : Rng) (counter : Nat) :
    (generate_daily_shipments d products suppliers inv pending rng
      counter).inventory_state = inv := rfl

theorem shipLoop_mono (d : Int) (ps : List Product) (ss : List Supplier) :
    ∀ (items : List (Cell × InvRecord)) (acc : ShipAcc) (s : Shipment),
      s ∈ acc.new_shipments →
      s ∈ (shipLoop d ps ss items acc).new_shipments := by
  intro items
  induction items with
  | nil => intro acc s h; exact h
  | cons e rest ih =>
      intro acc s h
      show s ∈ (shipLoop d ps ss rest (shipCell d ps ss e acc)).new_shipments
      apply ih
      rcases shipCell_new_shape d ps ss e acc with heq | ⟨x, hx⟩
      · rw [heq]; exact h
      · rw [hx]; exact List.mem_append_left _ h

theorem shipLoop_created (d : Int) (ps : List Product) (ss : List Supplier) :
    ∀ (items : List (Cell × InvRecord)) (acc : ShipAcc),
      (∀ s ∈ acc.new_shipments, createdProp d ps ss s) →
      ∀ s ∈ (shipLoop d ps ss items acc).new_shipments,
        createdProp d ps ss s := by
  intro items
  induction items with
  | nil => exact fun acc h => h
  | cons e rest ih =>
      intro acc hacc
      apply ih
      intro s hs
      rcases shipCell_mem d ps ss e acc s hs with h |
        ⟨hwh, hpid, hdate, harr, prod, sup, hprod, hsup, hsid, hexp⟩
      · exact hacc s h
      · exact ⟨hdate, harr, prod, sup, by rw [hpid]; exact hprod, hsup,
          hsid, hexp⟩

theorem generate_new_created (d : Int) (ps : List Product)
    (ss : List Supplier) (inv : List (Cell × InvRecord))
    (pending : List Shipment) (rng : Rng) (counter : Nat) :
    ∀ s ∈ (generate_daily_shipments d ps ss inv pending rng
      counter).new_shipments, createdProp d ps ss s := by
  intro s hs
  have h0 : (generate_daily_shipments d ps ss inv pending rng
      counter).new_shipments =
      (shipLoop d ps ss inv ⟨[], counter, rng⟩).new_shipments := rfl
  rw [h0] at hs
  exact shipLoop_created d ps ss inv _ (by intro s h; simp at h) s hs

/-- C5 amended: every shipment the pipeline creates on day d has
shipment_date = d, actual_arrival_date ≥ d + 1 (the actual lead is floored at
one day; the reliability penalty only adds days), and
expected_arrival_date = d + the chosen supplier's nominal average lead time;
the original "actual ≥ expected" is refuted by C5_counterexample since the
Gaussian lead-time noise can land below the nominal lead. -/
theorem C5_arrival_bounds (d : Int) (products : List Product)
    (suppliers : List Supplier) (inv : List (Cell × InvRecord))
    (pending : List Shipment) (rng : Rng) (counter : Nat) (s : Shipment)
    (hs : s ∈ (generate_daily_shipments d products suppliers inv pending rng
      counter).new_shipments) :
    createdProp d products suppliers s :=
  generate_new_created d products suppliers inv pending rng counter s hs

/-- Witness for C5 at the concrete deflated-lead pipeline call. -/
theorem C5_arrival_bounds_witness :
    (shipCallB.new_shipments.getD 0 default) ∈ shipCallB.new_shipments ∧
      createdProp 0 [prodA] [supA] (shipCallB.new_shipments.getD 0 default) :=
  ⟨getD_mem_of_lt shipCallB.new_shipments 0 default (by decide),
    C5_arrival_bounds 0 [prodA] [supA] [(("W1", "P1"), ⟨15, 100, 0⟩)] []
      (rngOf [0, 50, -2]) 1 _
      (getD_mem_of_lt shipCallB.new_shipments 0 default (by decide))⟩

theorem cellStep_uoo_nonneg (d : Int) (input : DayInput)
    (arr : List Shipment) (wh : String) (p : Product)
    (prevOpt : Option InvRecord) (rng : Rng)
    (hprev : 0 ≤ (prevOpt.getD ⟨100, 0, 0⟩).units_on_order) :
    0 ≤ (cellStep d input arr wh p prevOpt rng).2.1.units_on_order := by
  unfold cellStep
  dsimp only []
  have hq := (Rng.integers_bounds REORDER_QTY_LO REORDER_QTY_HI rng
    (by decide)).1
  split
  · dsimp only []
    split
    · refine add_nonneg (le_max_left 0 _) ?_
      refine le_trans (show (0 : Int) ≤ REORDER_QTY_LO by decide) hq
    · refine add_nonneg hprev ?_
      refine le_trans (show (0 : Int) ≤ REORDER_QTY_LO by decide) hq
  · dsimp only []
    split
    · exact le_max_left 0 _
    · exact hprev

theorem snapLoop_uoo_nonneg (d : Int) (input : DayInput)
    (arr : List Shipment) :
    ∀ (cells : List (String × Product)) (st : List (Cell × InvRecord))
      (rng : Rng),
      (∀ e ∈ st, 0 ≤ e.2.units_on_order) →
      ∀ e ∈ (snapLoop d input arr cells st rng).2.1,
        0 ≤ e.2.units_on_order := by
  intro cells
  induction cells with
  | nil => intro st rng h; exact h
  | cons c rest ih =>
      obtain ⟨wh, p⟩ := c
      intro st rng h e he
      simp only [snapLoop] at he
      refine ih _ _ ?_ e he
      intro e2 he2
      rcases updateA_mem _ _ _ _ he2 with h2 | h2
      · rw [h2]
        apply cellStep_uoo_nonneg d input arr wh p
          (lookupA st (wh, p.product_id)) rng
        cases hl : lookupA st (wh, p.product_id) with
        | none => simp [hl]
        | some r =>
            have := h _ (lookupA_mem _ _ _ hl)
            simpa [hl] using this
      · exact h e2 h2

theorem runFrom_uoo_nonneg (P : Params) :
    ∀ (inputs : List DayInput) (d : Int) (st : SimState) (rng : Rng),
      (∀ e ∈ st.inventory_state, 0 ≤ e.2.units_on_order) →
      ∀ e ∈ (runFrom P d st rng inputs).2.1.inventory_state,
        0 ≤ e.2.units_on_order := by
  intro inputs
  induction inputs with
  | nil => intro d st rng h; exact h
  | cons inp rest ih =>
      intro d st rng h
      simp only [runFrom]
      apply ih
      intro e he
      exact snapLoop_uoo_nonneg _ _ _ _ _ _ h e he

/-- C2 amended: at every day boundary of every run, every cell's
units_on_order is a non-negative integer (it starts non-negative, arrivals
decrement it with a clamp at 0, and a trigger adds a positive drawn
quantity); that it equals the sum of pending shipment quantities is refuted
by C2_counterexample. -/
theorem C2_units_on_order_nonneg (P : Params) (d0 : Int) (st0 : SimState)
    (rng0 : Rng) (inputs : List DayInput) (k : Nat)
    (h0 : ∀ e ∈ st0.inventory_state, 0 ≤ e.2.units_on_order) :
    ∀ e ∈ (stateAfter P d0 st0 rng0 inputs k).inventory_state,
      0 ≤ e.2.units_on_order :=
  runFrom_uoo_nonneg P (inputs.take k) d0 st0 rng0 h0

/-- Witness for C2's amended theorem on the initialized fixture run. -/
theorem C2_units_on_order_nonneg_witness :
    (∀ e ∈ stA.1.inventory_state, 0 ≤ e.2.units_on_order) ∧
      ∀ e ∈ (stateAfter paramsA 0 stA.1 stA.2
        [inputSell45, inputZero, inputZero] 3).inventory_state,
        0 ≤ e.2.units_on_order :=
  ⟨by decide,
    C2_units_on_order_nonneg paramsA 0 stA.1 stA.2
      [inputSell45, inputZero, inputZero] 3 (by decide)⟩

theorem cellStep_row_warehouse (d : Int) (input : DayInput)
    (arr : List Shipment) (wh : String) (p : Product)
    (prevOpt : Option InvRecord) (rng : Rng) :
    (cellStep d input arr wh p prevOpt rng).1.warehouse_id = wh := rfl

theorem cellStep_row_pid (d : Int) (input : DayInput)
    (arr : List Shipment) (wh : String) (p : Product)
    (prevOpt : Option InvRecord) (rng : Rng) :
    (cellStep d input arr wh p prevOpt rng).1.product_id = p.product_id := rfl

theorem cellStep_row_opening (d : Int) (input : DayInput)
    (arr : List Shipment) (wh : String) (p : Product)
    (prevOpt : Option InvRecord) (rng : Rng) :
    (cellStep d input arr wh p prevOpt rng).1.opening_stock =
      (prevOpt.getD ⟨100, 0, 0⟩).closing_stock := rfl

theorem cellStep_conservation (d : Int) (input : DayInput)
    (arr : List Shipment) (wh : String) (p : Product)
    (prevOpt : Option InvRecord) (rng : Rng) :
    (cellStep d input arr wh p prevOpt rng).1.closing_stock =
      max 0 ((cellStep d input arr wh p prevOpt rng).1.opening_stock -
        (cellStep d input arr wh p prevOpt rng).1.units_sold +
        (cellStep d input arr wh p prevOpt rng).1.units_received +
        (cellStep d input arr wh p prevOpt rng).1.units_returned) := rfl

theorem cellStep_rec_closing (d : Int) (input : DayInput)
    (arr : List Shipment) (wh : String) (p : Product)
    (prevOpt : Option InvRecord) (rng : Rng) :
    (cellStep d input arr wh p prevOpt rng).2.1.closing_stock =
      (cellStep d input arr wh p prevOpt rng).1.closing_stock := rfl

theorem cellStep_rec_uoo (d : Int) (input : DayInput)
    (arr : List Shipment) (wh : String) (p : Product)
    (prevOpt : Option InvRecord) (rng : Rng) :
    (cellStep d input arr wh p prevOpt rng).2.1.units_on_order =
      (cellStep d input arr wh p prevOpt rng).1.units_on_order := rfl

theorem cellStep_trigger (d : Int) (input : DayInput)
    (arr : List Shipment) (wh : String) (p : Product)
    (prevOpt : Option InvRecord) (rng : Rng)
    (h : (cellStep d input arr wh p prevOpt rng).1.reorder_triggered_flag
      = true) :
    (cellStep d input arr wh p prevOpt rng).1.closing_stock ≤
        p.reorder_point ∧
      0 < (cellStep d input arr wh p prevOpt rng).1.units_on_order := by
  unfold cellStep at h ⊢
  dsimp only [] at h ⊢
  rw [decide_eq_true_iff] at h
  obtain ⟨h1, h2⟩ := h
  refine ⟨h1, ?_⟩
  rw [if_pos ⟨h1, h2⟩]
  dsimp only []
  have hq := (Rng.integers_bounds REORDER_QTY_LO REORDER_QTY_HI rng
    (by decide)).1
  have hq2 : (0 : Int) < REORDER_QTY_LO := by decide
  split
  · refine add_pos_of_nonneg_of_pos (le_max_left 0 _) (by omega)
  · rw [h2]
    omega

theorem snapLoop_conservation (d : Int) (input : DayInput)
    (arr : List Shipment) :
    ∀ (cells : List (String × Product)) (st : List (Cell × InvRecord))
      (rng : Rng), ∀ row ∈ (snapLoop d input arr cells st rng).1,
      row.closing_stock = max 0 (row.opening_stock - row.units_sold +
        row.units_received + row.units_returned) := by
  intro cells
  induction cells with
  | nil => intro st rng row hrow; simp [snapLoop] at hrow
  | cons c rest ih =>
      obtain ⟨wh, p⟩ := c
      intro st rng row hrow
      simp only [snapLoop, List.mem_cons] at hrow
      rcases hrow with hrow | hrow
      · rw [hrow]
        exact cellStep_conservation d input arr wh p _ rng
      · exact ih _ _ row hrow

theorem snapLoop_preserve (d : Int) (input : DayInput)
    (arr : List Shipment) :
    ∀ (cells : List (String × Product)) (st : List (Cell × InvRecord))
      (rng : Rng) (k : Cell),
      (∀ c ∈ cells, (c.1, c.2.product_id) ≠ k) →
      lookupA (snapLoop d input arr cells st rng).2.1 k = lookupA st k := by
  intro cells
  induction cells with
  | nil => intro st rng k h; rfl
  | cons c rest ih =>
      obtain ⟨wh, p⟩ := c
      intro st rng k h
      show lookupA (snapLoop d input arr rest
        (updateA st (wh, p.product_id) _) _).2.1 k = _
      rw [ih _ _ k (fun c hc => h c (List.mem_cons_of_mem _ hc))]
      exact lookupA_updateA_ne st k (wh, p.product_id) _
        (h (wh, p) (List.mem_cons_self _ _))

theorem snapLoop_find (d : Int) (input : DayInput) (arr : List Shipment) :
    ∀ (cells : List (String × Product)) (st : List (Cell × InvRecord))
      (rng : Rng) (w : String) (p : Product),
      (w, p) ∈ cells →
      (cells.map (fun c => (c.1, c.2.product_id))).Nodup →
      ∃ row rec,
        rowFor (snapLoop d input arr cells st rng).1 w p.product_id
            = some row ∧
        lookupA (snapLoop d input arr cells st rng).2.1 (w, p.product_id)
            = some rec ∧
        rec.closing_stock = row.closing_stock ∧
        rec.units_on_order = row.units_on_order ∧
        row.opening_stock =
          ((lookupA st (w, p.product_id)).getD ⟨100, 0, 0⟩).closing_stock ∧
        (row.reorder_triggered_flag = true →
          row.closing_stock ≤ p.reorder_point ∧ 0 < row.units_on_order) := by
  intro cells
  induction cells with
  | nil => intro st rng w p hmem hnd; simp at hmem
  | cons c rest ih =>
      obtain ⟨wh, q⟩ := c
      intro st rng w p hmem hnd
      simp only [List.map_cons, List.nodup_cons] at hnd
      rcases List.mem_cons.mp hmem with heq | hmemr
      · injection heq with hw hq
        subst hw
        subst hq
        refine ⟨(cellStep d input arr w p
            (lookupA st (w, p.product_id)) rng).1,
          (cellStep d input arr w p (lookupA st (w, p.product_id)) rng).2.1,
          ?_, ?_, rfl, rfl, rfl,
          cellStep_trigger d input arr w p
            (lookupA st (w, p.product_id)) rng⟩
        · show ((cellStep d input arr w p (lookupA st (w, p.product_id))
              rng).1 ::
            (snapLoop d input arr rest
              (updateA st (w, p.product_id)
                (cellStep d input arr w p (lookupA st (w, p.product_id))
                  rng).2.1)
              (cellStep d input arr w p (lookupA st (w, p.product_id))
                rng).2.2).1).find?
            (fun r => r.warehouse_id = w ∧ r.product_id = p.product_id)
              = _
          rw [List.find?_cons_of_pos]
          simp [cellStep_row_warehouse, cellStep_row_pid]
        · show lookupA (snapLoop d input arr rest
            (updateA st (w, p.product_id)
              (cellStep d input arr w p (lookupA st (w, p.product_id))
                rng).2.1)
            (cellStep d input arr w p (lookupA st (w, p.product_id))
              rng).2.2).2.1 (w, p.product_id) = _
          rw [snapLoop_preserve d input arr rest _ _ (w, p.product_id)
            (fun c hc hck => hnd.1 (hck ▸ List.mem_map_of_mem
              (fun c => (c.1, c.2.product_id)) hc))]
          exact lookupA_updateA_self st (w, p.product_id) _
      · have hkey : ((wh, q.product_id) : Cell) ≠ (w, p.product_id) :=
          fun hk => hnd.1 (hk ▸ List.mem_map_of_mem
            (fun c => (c.1, c.2.product_id)) hmemr)
        obtain ⟨row, rec, h1, h2, h3, h4, h5, h6⟩ :=
          ih (updateA st (wh, q.product_id)
            (cellStep d input arr wh q (lookupA st (wh, q.product_id))
              rng).2.1)
          (cellStep d input arr wh q (lookupA st (wh, q.product_id)) rng).2.2
          w p hmemr hnd.2
        refine ⟨row, rec, ?_, h2, h3, h4, ?_, h6⟩
        · show ((cellStep d input arr wh q (lookupA st (wh, q.product_id))
              rng).1 ::
            (snapLoop d input arr rest
              (updateA st (wh, q.product_id)
                (cellStep d input arr wh q (lookupA st (wh, q.product_id))
                  rng).2.1)
              (cellStep d input arr wh q (lookupA st (wh, q.product_id))
                rng).2.2).1).find?
            (fun r => r.warehouse_id = w ∧ r.product_id = p.product_id)
              = _
          rw [List.find?_cons_of_neg]
          · exact h1
          · simp only [cellStep_row_warehouse, cellStep_row_pid,
              decide_eq_true_eq]
            intro hcontra
            exact hkey (by rw [hcontra.1, hcontra.2])
        · rw [h5, lookupA_updateA_ne st _ _ _ hkey]

theorem runDay_find (P : Params) (d : Int) (input : DayInput) (st : SimState)
    (rng : Rng) (w : String) (p : Product)
    (hmem : (w, p) ∈ snapCells P.warehouses P.products)
    (hnd : ((snapCells P.warehouses P.products).map
      (fun c => (c.1, c.2.product_id))).Nodup) :
    ∃ row rec,
      rowFor (runDay P d input st rng).1.snapshot w p.product_id
          = some row ∧
      lookupA (runDay P d input st rng).2.1.inventory_state
          (w, p.product_id) = some rec ∧
      rec.closing_stock = row.closing_stock ∧
      rec.units_on_order = row.units_on_order ∧
      row.opening_stock = ((lookupA st.inventory_state
        (w, p.product_id)).getD ⟨100, 0, 0⟩).closing_stock ∧
      (row.reorder_triggered_flag = true →
        row.closing_stock ≤ p.reorder_point ∧ 0 < row.units_on_order) :=
  snapLoop_find d input _ (snapCells P.warehouses P.products)
    st.inventory_state _ w p hmem hnd

theorem runFrom_conservation (P : Params) :
    ∀ (inputs : List DayInput) (d : Int) (st : SimState) (rng : Rng)
      (j : Nat),
      ∀ row ∈ ((runFrom P d st rng inputs).1.getD j default).snapshot,
      row.closing_stock = max 0 (row.opening_stock - row.units_sold +
        row.units_received + row.units_returned) := by
  intro inputs
  induction inputs with
  | nil =>
      intro d st rng j row hrow
      simp only [runFrom, List.getD] at hrow
      cases hrow
  | cons inp rest ih =>
      intro d st rng j row hrow
      cases j with
      | zero =>
          simp only [runFrom, List.getD_cons_zero] at hrow
          exact snapLoop_conservation d inp _ _ _ _ row hrow
      | succ m =>
          simp only [runFrom, List.getD_cons_succ] at hrow
          exact ih (d + 1) _ _ m row hrow

theorem runFrom_chain (P : Params)
    (hnd : ((snapCells P.warehouses P.products).map
      (fun c => (c.1, c.2.product_id))).Nodup)
    (w : String) (p : Product)
    (hmem : (w, p) ∈ snapCells P.warehouses P.products) :
    ∀ (inputs : List DayInput) (d : Int) (st : SimState) (rng : Rng)
      (i : Nat), i + 1 < inputs.length →
      ∃ r1 r2,
        rowFor ((runFrom P d st rng inputs).1.getD i default).snapshot w
            p.product_id = some r1 ∧
        rowFor ((runFrom P d st rng inputs).1.getD (i + 1) default).snapshot
            w p.product_id = some r2 ∧
        r2.opening_stock = r1.closing_stock := by
  intro inputs
  induction inputs with
  | nil => intro d st rng i hi; simp at hi
  | cons inp rest ih =>
      intro d st rng i hi
      cases i with
      | zero =>
          cases rest with
          | nil => simp at hi
          | cons inp2 rest2 =>
              obtain ⟨r1, rec1, hr1, hrec1, hcl, huoo, hop1, htr1⟩ :=
                runDay_find P d inp st rng w p hmem hnd
              obtain ⟨r2, rec2, hr2, hrec2, hcl2, huoo2, hop2, htr2⟩ :=
                runDay_find P (d + 1) inp2 (runDay P d inp st rng).2.1
                  (runDay P d inp st rng).2.2 w p hmem hnd
              refine ⟨r1, r2, ?_, ?_, ?_⟩
              · simpa only [runFrom, List.getD_cons_zero] using hr1
              · simp only [runFrom, List.getD_cons_succ, List.getD_cons_zero]
                exact hr2
              · rw [hop2, hrec1]
                simpa using hcl
      | succ m =>
          simp only [runFrom, List.getD_cons_succ]
          exact ih (d + 1) _ _ m (by simpa using hi)

/-- C3: conservation holds on the code.  Every snapshot row of every day of
every run satisfies closing_stock = max(0, opening_stock − units_sold +
units_received + units_returned) (inventory.py line 130), and for every grid
cell the opening stock of the day-(i+1) row equals the closing stock of the
day-i row (the ledger writes closing_stock back into the carried state, line
182, and reads it as the next day's opening, line 124). -/
theorem C3_conservation (P : Params) (d0 : Int) (st0 : SimState) (rng0 : Rng)
    (inputs : List DayInput) (w : String) (p : Product) (i j : Nat)
    (hnd : ((snapCells P.warehouses P.products).map
      (fun c => (c.1, c.2.product_id))).Nodup)
    (hmem : (w, p) ∈ snapCells P.warehouses P.products)
    (hi : i + 1 < inputs.length) :
    (∀ row ∈ ((runFrom P d0 st0 rng0 inputs).1.getD j default).snapshot,
      row.closing_stock = max 0 (row.opening_stock - row.units_sold +
        row.units_received + row.units_returned)) ∧
    ∃ r1 r2,
      rowFor ((runFrom P d0 st0 rng0 inputs).1.getD i default).snapshot w
          p.product_id = some r1 ∧
      rowFor ((runFrom P d0 st0 rng0 inputs).1.getD (i + 1) default).snapshot
          w p.product_id = some r2 ∧
      r2.opening_stock = r1.closing_stock :=
  ⟨runFrom_conservation P inputs d0 st0 rng0 j,
    runFrom_chain P hnd w p hmem inputs d0 st0 rng0 i hi⟩

/-- Witness for C3 on the initialized three-day fixture run. -/
theorem C3_conservation_witness :
    (((snapCells paramsA.warehouses paramsA.products).map
        (fun c => (c.1, c.2.product_id))).Nodup ∧
      ("W1", prodA) ∈ snapCells paramsA.warehouses paramsA.products ∧
      0 + 1 < ([inputSell45, inputZero, inputZero] : List DayInput).length) ∧
    (∀ row ∈ ((runFrom paramsA 0 stA.1 stA.2
        [inputSell45, inputZero, inputZero]).1.getD 0 default).snapshot,
      row.closing_stock = max 0 (row.opening_stock - row.units_sold +
        row.units_received + row.units_returned)) ∧
    ∃ r1 r2,
      rowFor ((runFrom paramsA 0 stA.1 stA.2
          [inputSell45, inputZero, inputZero]).1.getD 0 default).snapshot
          "W1" prodA.product_id = some r1 ∧
      rowFor ((runFrom paramsA 0 stA.1 stA.2
          [inputSell45, inputZero, inputZero]).1.getD (0 + 1)
          default).snapshot "W1" prodA.product_id = some r2 ∧
      r2.opening_stock = r1.closing_stock :=
  ⟨⟨by decide, by decide, by decide⟩,
    C3_conservation paramsA 0 stA.1 stA.2 [inputSell45, inputZero, inputZero]
      "W1" prodA 0 0 (by decide) (by decide) (by decide)⟩

theorem shipCell_creates (d : Int) (ps : List Product) (ss : List Supplier)
    (ent : Cell × InvRecord) (acc : ShipAcc) (prod : Product)
    (hprod : lookupProduct ps ent.1.2 = some prod)
    (hgate : ent.2.closing_stock ≤ prod.reorder_point ∧
      ent.2.units_on_order > 0)
    (hav : (availableSuppliers ss prod.category).isEmpty = false) :
    ∃ x, (shipCell d ps ss ent acc).new_shipments =
        acc.new_shipments ++ [x] ∧
      x.warehouse_id = ent.1.1 ∧ x.product_id = ent.1.2 ∧
      x.shipment_date = d := by
  unfold shipCell
  rw [hprod]
  dsimp only []
  rw [if_pos hgate, if_neg (by simp [hav])]
  exact ⟨_, rfl, rfl, rfl, rfl⟩

theorem shipLoop_creates (d : Int) (ps : List Product) (ss : List Supplier) :
    ∀ (items : List (Cell × InvRecord)) (acc : ShipAcc)
      (ent : Cell × InvRecord) (prod : Product),
      ent ∈ items →
      lookupProduct ps ent.1.2 = some prod →
      (ent.2.closing_stock ≤ prod.reorder_point ∧
        ent.2.units_on_order > 0) →
      (availableSuppliers ss prod.category).isEmpty = false →
      ∃ s ∈ (shipLoop d ps ss items acc).new_shipments,
        s.warehouse_id = ent.1.1 ∧ s.product_id = ent.1.2 ∧
        s.shipment_date = d := by
  intro items
  induction items with
  | nil => intro acc ent prod h; simp at h
  | cons e rest ih =>
      intro acc ent prod hmem hprod hgate hav
      rcases List.mem_cons.mp hmem with heq | hmem2
      · subst heq
        obtain ⟨x, hx, hxw, hxp, hxd⟩ :=
          shipCell_creates d ps ss ent acc prod hprod hgate hav
        refine ⟨x, ?_, hxw, hxp, hxd⟩
        apply shipLoop_mono d ps ss rest _ x
        rw [hx]
        exact List.mem_append_right _ (List.mem_singleton_self x)
      · exact ih (shipCell d ps ss e acc) ent prod hmem2 hprod hgate hav

theorem runDay_creates_next (P : Params) (d : Int) (inp1 inp2 : DayInput)
    (st : SimState) (rng : Rng) (w : String) (p : Product)
    (hmem : (w, p) ∈ snapCells P.warehouses P.products)
    (hnd : ((snapCells P.warehouses P.products).map
      (fun c => (c.1, c.2.product_id))).Nodup)
    (hprod : lookupProduct P.products p.product_id = some p)
    (hav : (availableSuppliers P.suppliers p.category).isEmpty = false)
    (r1 : SnapshotRow)
    (hr1 : rowFor (runDay P d inp1 st rng).1.snapshot w p.product_id
      = some r1)
    (htr : r1.reorder_triggered_flag = true) :
    ∃ s ∈ (runDay P (d + 1) inp2 (runDay P d inp1 st rng).2.1
        (runDay P d inp1 st rng).2.2).1.shipments,
      s.warehouse_id = w ∧ s.product_id = p.product_id ∧
      s.shipment_date = d + 1 := by
  obtain ⟨row, rec, hrow, hrec, hcl, huoo, hop, htrig⟩ :=
    runDay_find P d inp1 st rng w p hmem hnd
  have hrr : row = r1 := by
    rw [hrow] at hr1
    exact Option.some.inj hr1
  subst hrr
  have hgate := htrig htr
  have hent : ((w, p.product_id), rec) ∈
      (runDay P d inp1 st rng).2.1.inventory_state :=
    lookupA_mem _ _ _ hrec
  obtain ⟨s, hs, hsw, hsp, hsd⟩ :=
    shipLoop_creates (d + 1) P.products P.suppliers
      (runDay P d inp1 st rng).2.1.inventory_state
      ⟨[], (runDay P d inp1 st rng).2.1.shipment_counter,
        (runDay P d inp1 st rng).2.2⟩
      ((w, p.product_id), rec) p hent hprod
      ⟨by rw [hcl]; exact hgate.1, by rw [huoo]; exact hgate.2⟩ hav
  exact ⟨s, hs, hsw, hsp, hsd⟩

/-- C4 amended: creation is lagged one day.  If the Inventory Ledger arms a
reorder for a grid cell on day i of a run (the day-i snapshot row has
reorder_triggered_flag = true), and the cell's product is resolvable with at
least one supplier serving its category, then the Shipment Pipeline creates a
shipment for that cell on day i+1 (shipment_date = start + i + 1) — because
under the orchestrator's fixed call order (shipments before inventory,
backfill.py lines 138-150) the pipeline reads the previous day's post-ledger
state; same-day creation is refuted by C4_counterexample. -/
theorem C4_next_day_creation (P : Params) (w : String) (p : Product)
    (hnd : ((snapCells P.warehouses P.products).map
      (fun c => (c.1, c.2.product_id))).Nodup)
    (hmem : (w, p) ∈ snapCells P.warehouses P.products)
    (hprod : lookupProduct P.products p.product_id = some p)
    (hav : (availableSuppliers P.suppliers p.category).isEmpty = false) :
    ∀ (inputs : List DayInput) (d : Int) (st : SimState) (rng : Rng)
      (i : Nat), i + 1 < inputs.length →
      ∀ r1, rowFor ((runFrom P d st rng inputs).1.getD i default).snapshot w
          p.product_id = some r1 →
        r1.reorder_triggered_flag = true →
        ∃ s ∈ ((runFrom P d st rng inputs).1.getD (i + 1) default).shipments,
          s.warehouse_id = w ∧ s.product_id = p.product_id ∧
          s.shipment_date = d + i + 1 := by
  intro inputs
  induction inputs with
  | nil => intro d st rng i hi; simp at hi
  | cons inp rest ih =>
      intro d st rng i hi r1 hr1 htr
      cases i with
      | zero =>
          cases rest with
          | nil => simp at hi
          | cons inp2 rest2 =>
              simp only [runFrom, List.getD_cons_zero] at hr1
              obtain ⟨s, hs, hsw, hsp, hsd⟩ :=
                runDay_creates_next P d inp inp2 st rng w p hmem hnd hprod
                  hav r1 hr1 htr
              refine ⟨s, ?_, hsw, hsp, by rw [hsd]; push_cast; ring⟩
              simpa only [runFrom, List.getD_cons_succ, List.getD_cons_zero]
                using hs
      | succ m =>
          simp only [runFrom, List.getD_cons_succ] at hr1 ⊢
          obtain ⟨s, hs, hsw, hsp, hsd⟩ :=
            ih (d + 1) _ _ m (by simpa using hi) r1 hr1 htr
          refine ⟨s, hs, hsw, hsp, by rw [hsd]; push_cast; ring⟩

/-- Witness for C4 on the fixture run: the day-0 trigger row yields a day-1
shipment. -/
theorem C4_next_day_creation_witness :
    (rowFor ((runFrom paramsA 0 stA.1 stA.2
        [inputSell45, inputZero, inputZero]).1.getD 0 default).snapshot "W1"
        prodA.product_id).isSome = true ∧
    ∃ s ∈ ((runFrom paramsA 0 stA.1 stA.2
        [inputSell45, inputZero, inputZero]).1.getD (0 + 1)
          default).shipments,
      s.warehouse_id = "W1" ∧ s.product_id = prodA.product_id ∧
      s.shipment_date = 0 + (0 : Nat) + 1 :=
  ⟨by decide,
    C4_next_day_creation paramsA "W1" prodA (by decide) (by decide)
      (by decide) (by decide) [inputSell45, inputZero, inputZero] 0 stA.1
      stA.2 0 (by decide)
      ((rowFor ((runFrom paramsA 0 stA.1 stA.2
        [inputSell45, inputZero, inputZero]).1.getD 0 default).snapshot "W1"
        prodA.product_id).get (by decide))
      (Option.some_get (by decide)).symm (by decide)⟩

theorem splitBar_no_bar (l : List Char) (h : '|' ∉ l) : splitBar l = [l] := by
  induction l with
  | nil => rfl
  | cons c t ih =>
      simp only [List.mem_cons, not_or] at h
      unfold splitBar
      rw [if_neg (fun hc => h.1 hc.symm)]
      rw [ih h.2]

theorem splitBar_append (a b : List Char) (ha : '|' ∉ a) :
    splitBar (a ++ '|' :: b) = a :: splitBar b := by
  induction a with
  | nil =>
      show splitBar ('|' :: b) = [] :: splitBar b
      conv_lhs => rw [splitBar]
      rw [if_pos rfl]
  | cons c t ih =>
      simp only [List.mem_cons, not_or] at ha
      show splitBar (c :: (t ++ '|' :: b)) = _
      conv_lhs => rw [splitBar]
      rw [if_neg (fun hc => ha.1 hc.symm), ih ha.2]

theorem parseDate_serDate (d : Int) : parseDate (serDate d) = d := by
  unfold parseDate serDate
  by_cases h : 0 ≤ d
  · rw [if_pos (decide_eq_true h), Nat.ofDigits_digits]
    omega
  · rw [if_neg (by simp [h]), Nat.ofDigits_digits]
    omega

theorem parseShipment_serShipment (s : Shipment) :
    parseShipment (serShipment s) = s := by
  obtain ⟨f1, f2, f3, f4, f5, f6, f7, f8, f9, f10, f11⟩ := s
  unfold parseShipment serShipment
  simp [parseDate_serDate]

theorem parseEntries_roundtrip (l : List (Cell × InvRecord))
    (h : ∀ e ∈ l, '|' ∉ e.1.1.data ∧ '|' ∉ e.1.2.data) :
    parseEntries (l.map (fun e => (serKey e.1, e.2))) = some l := by
  induction l with
  | nil => rfl
  | cons e t ih =>
      have he := h e (List.mem_cons_self _ _)
      have h1 : parseEntry (serKey e.1, e.2) = some e := by
        unfold parseEntry parseKey serKey
        rw [splitBar_append _ _ he.1, splitBar_no_bar _ he.2]
        rfl
      show parseEntries ((serKey e.1, e.2) ::
        t.map (fun e => (serKey e.1, e.2))) = _
      unfold parseEntries
      rw [h1, ih (fun e2 he2 => h e2 (List.mem_cons_of_mem _ he2))]

/-- C8: checkpoint round-trip holds on the code.  For every SimulationState
whose inventory keys contain no '|' character, deserializing the serialized
flat record restores the state exactly: the flattened "wh|pid" keys split
back into the original tuple keys, the stringified shipment dates parse back
to the original dates, the per-cell records and the four counters pass
through unchanged; the JSON string form (python's json.dumps/loads text
layer, modelled as the identity on the flat record) round-trips likewise. -/
theorem C8_roundtrip (st : SimState)
    (h : ∀ e ∈ st.inventory_state, '|' ∉ e.1.1.data ∧ '|' ∉ e.1.2.data) :
    from_dict (to_dict st) = some st ∧ from_json (to_json st) = some st := by
  have h1 : from_dict (to_dict st) = some st := by
    unfold from_dict to_dict
    dsimp only []
    rw [parseEntries_roundtrip _ h]
    simp only [Option.map_some', Option.some.injEq]
    obtain ⟨inv, pend, c1, c2, c3, c4⟩ := st
    simp only [SimState.mk.injEq, List.map_map, true_and, and_true]
    have hid : parseShipment ∘ serShipment = id :=
      funext parseShipment_serShipment
    rw [hid, List.map_id]
  exact ⟨h1, h1⟩

/-- Witness for C8 on a concrete state with one inventory cell and one
pending shipment. -/
theorem C8_roundtrip_witness :
    (∀ e ∈ stC8.inventory_state, '|' ∉ e.1.1.data ∧ '|' ∉ e.1.2.data) ∧
      from_dict (to_dict stC8) = some stC8 ∧
      from_json (to_json stC8) = some stC8 :=
  ⟨by decide, C8_roundtrip stC8 (by decide)⟩

theorem runDay_pending (P : Params) (d : Int) (inp : DayInput) (st : SimState)
    (rng : Rng) :
    (runDay P d inp st rng).2.1.pending_shipments =
      (st.pending_shipments ++ (runDay P d inp st rng).1.shipments).filter
        (fun s => s.actual_arrival_date > d) := rfl

theorem runDay_arriving (P : Params) (d : Int) (inp : DayInput)
    (st : SimState) (rng : Rng) :
    (runDay P d inp st rng).1.arriving =
      (st.pending_shipments ++ (runDay P d inp st rng).1.shipments).filter
        (fun s => s.actual_arrival_date = d) := rfl

theorem dayStep_created (P : Params) (d : Int) (st : SimState) (rng : Rng)
    (inputs : List DayInput) (k : Nat) (s : Shipment)
    (hs : s ∈ (dayStep P d st rng inputs k).1.shipments) :
    s.shipment_date = d + k ∧ d + k + 1 ≤ s.actual_arrival_date := by
  have h := generate_new_created (d + k) P.products P.suppliers
    (stateAfter P d st rng inputs k).inventory_state
    (stateAfter P d st rng inputs k).pending_shipments
    (rngAfter P d st rng inputs k)
    (stateAfter P d st rng inputs k).shipment_counter s hs
  exact ⟨h.1, h.2.1⟩

theorem stateAfter_zero (P : Params) (d : Int) (st : SimState) (rng : Rng)
    (inputs : List DayInput) : stateAfter P d st rng inputs 0 = st := rfl

theorem stateAfter_cons (P : Params) (d : Int) (st : SimState) (rng : Rng)
    (inp : DayInput) (rest : List DayInput) (k : Nat) :
    stateAfter P d st rng (inp :: rest) (k + 1) =
      stateAfter P (d + 1) (runDay P d inp st rng).2.1
        (runDay P d inp st rng).2.2 rest k := rfl

theorem rngAfter_cons (P : Params) (d : Int) (st : SimState) (rng : Rng)
    (inp : DayInput) (rest : List DayInput) (k : Nat) :
    rngAfter P d st rng (inp :: rest) (k + 1) =
      rngAfter P (d + 1) (runDay P d inp st rng).2.1
        (runDay P d inp st rng).2.2 rest k := rfl

theorem dayStep_zero (P : Params) (d : Int) (st : SimState) (rng : Rng)
    (inp : DayInput) (rest : List DayInput) :
    dayStep P d st rng (inp :: rest) 0 = runDay P d inp st rng := by
  unfold dayStep
  have hd : d + ((0 : Nat) : Int) = d := by push_cast; ring
  rw [hd]
  rfl

theorem dayStep_cons (P : Params) (d : Int) (st : SimState) (rng : Rng)
    (inp : DayInput) (rest : List DayInput) (k : Nat) :
    dayStep P d st rng (inp :: rest) (k + 1) =
      dayStep P (d + 1) (runDay P d inp st rng).2.1
        (runDay P d inp st rng).2.2 rest k := by
  unfold dayStep
  rw [stateAfter_cons, rngAfter_cons, List.getD_cons_succ]
  have hd : d + ((k + 1 : Nat) : Int) = d + 1 + (k : Int) := by
    push_cast
    ring
  rw [hd]

theorem stateAfter_succ (P : Params) :
    ∀ (inputs : List DayInput) (k : Nat) (d : Int) (st : SimState)
      (rng : Rng), k < inputs.length →
      stateAfter P d st rng inputs (k + 1) =
        (dayStep P d st rng inputs k).2.1 := by
  intro inputs
  induction inputs with
  | nil => intro k d st rng hk; simp at hk
  | cons inp rest ih =>
      intro k d st rng hk
      cases k with
      | zero => rw [stateAfter_cons, stateAfter_zero, dayStep_zero]
      | succ m =>
          rw [stateAfter_cons, dayStep_cons]
          exact ih m (d + 1) _ _ (by simpa using hk)

theorem results_getD (P : Params) :
    ∀ (inputs : List DayInput) (j : Nat) (d : Int) (st : SimState)
      (rng : Rng), j < inputs.length →
      (runFrom P d st rng inputs).1.getD j default =
        (dayStep P d st rng inputs j).1 := by
  intro inputs
  induction inputs with
  | nil => intro j d st rng hj; simp at hj
  | cons inp rest ih =>
      intro j d st rng hj
      cases j with
      | zero =>
          simp only [runFrom, List.getD_cons_zero]
          rw [dayStep_zero]
      | succ m =>
          simp only [runFrom, List.getD_cons_succ]
          rw [dayStep_cons]
          exact ih m (d + 1) _ _ (by simpa using hj)

theorem pending_step (P : Params) (inputs : List DayInput) (k : Nat)
    (d : Int) (st : SimState) (rng : Rng) (hk : k < inputs.length) :
    (stateAfter P d st rng inputs (k + 1)).pending_shipments =
      ((stateAfter P d st rng inputs k).pending_shipments ++
        (dayStep P d st rng inputs k).1.shipments).filter
        (fun s => s.actual_arrival_date > d + k) := by
  rw [stateAfter_succ P inputs k d st rng hk]
  exact runDay_pending P (d + k) (inputs.getD k default)
    (stateAfter P d st rng inputs k) (rngAfter P d st rng inputs k)

theorem arriving_step (P : Params) (inputs : List DayInput) (k : Nat)
    (d : Int) (st : SimState) (rng : Rng) :
    (dayStep P d st rng inputs k).1.arriving =
      ((stateAfter P d st rng inputs k).pending_shipments ++
        (dayStep P d st rng inputs k).1.shipments).filter
        (fun s => s.actual_arrival_date = d + k) :=
  runDay_arriving P (d + k) (inputs.getD k default)
    (stateAfter P d st rng inputs k) (rngAfter P d st rng inputs k)

theorem pending_mem_iff (P : Params) (d : Int) (st : SimState) (rng : Rng)
    (inputs : List DayInput) (h0 : st.pending_shipments = [])
    (j : Nat) (hj : j < inputs.length) (s : Shipment)
    (hs : s ∈ (dayStep P d st rng inputs j).1.shipments) :
    ∀ k, k ≤ inputs.length →
      (s ∈ (stateAfter P d st rng inputs k).pending_shipments ↔
        (j < k ∧ (d + k : Int) ≤ s.actual_arrival_date)) := by
  obtain ⟨hdate, harr⟩ := dayStep_created P d st rng inputs j s hs
  intro k
  induction k with
  | zero =>
      intro _
      rw [stateAfter_zero, h0]
      simp
  | succ m ihk =>
      intro hk
      have hm : m < inputs.length := Nat.lt_of_lt_of_le (Nat.lt_succ_self m) hk
      rw [pending_step P inputs m d st rng hm]
      rw [List.mem_filter, List.mem_append]
      constructor
      · rintro ⟨hmem | hmem, hcond⟩
        · obtain ⟨hjm, hda⟩ := (ihk (le_of_lt hm)).mp hmem
          refine ⟨Nat.lt_succ_of_lt hjm, ?_⟩
          simp only [decide_eq_true_eq] at hcond
          push_cast at hda hcond ⊢
          omega
        · have hd2 := (dayStep_created P d st rng inputs m s hmem).1
          have hjm : j = m := by
            rw [hdate] at hd2
            omega
          subst hjm
          refine ⟨Nat.lt_succ_self j, ?_⟩
          push_cast at harr ⊢
          omega
      · rintro ⟨hjk, hda⟩
        have hcond : s.actual_arrival_date > d + (m : Int) := by
          push_cast at hda ⊢
          omega
        rcases Nat.lt_succ_iff_lt_or_eq.mp hjk with hjm | hjm
        · refine ⟨Or.inl ((ihk (le_of_lt hm)).mpr
            ⟨hjm, by push_cast at hda ⊢; omega⟩), by simpa using hcond⟩
        · subst hjm
          exact ⟨Or.inr hs, by simpa using hcond⟩

/-- C6: shipment lifecycle holds on the code.  In a sequential run started
with an empty pending queue, every shipment created on day j satisfies
actual_arrival_date ≥ shipment_date + 1 with shipment_date = start + j; it
appears in the "arriving today" output of day i exactly when that day's date
equals its actual_arrival_date; and it sits in the pending queue after k days
exactly while created-and-not-yet-arrived (j < k and date(k) ≤ arrival) — so
extraction on the arrival date is the queue's only eviction path. -/
theorem C6_shipment_lifecycle (P : Params) (d0 : Int) (st0 : SimState)
    (rng0 : Rng) (inputs : List DayInput)
    (h0 : st0.pending_shipments = [])
    (j i k : Nat) (hj : j < inputs.length) (hi : i < inputs.length)
    (hk : k ≤ inputs.length) (s : Shipment)
    (hs : s ∈ ((runFrom P d0 st0 rng0 inputs).1.getD j default).shipments) :
    s.shipment_date = d0 + j ∧
    d0 + j + 1 ≤ s.actual_arrival_date ∧
    (s ∈ ((runFrom P d0 st0 rng0 inputs).1.getD i default).arriving ↔
      (d0 + i : Int) = s.actual_arrival_date) ∧
    (s ∈ (stateAfter P d0 st0 rng0 inputs k).pending_shipments ↔
      (j < k ∧ (d0 + k : Int) ≤ s.actual_arrival_date)) := by
  rw [results_getD P inputs j d0 st0 rng0 hj] at hs
  obtain ⟨hdate, harr⟩ := dayStep_created P d0 st0 rng0 inputs j s hs
  refine ⟨hdate, harr, ?_,
    pending_mem_iff P d0 st0 rng0 inputs h0 j hj s hs k hk⟩
  rw [results_getD P inputs i d0 st0 rng0 hi]
  rw [arriving_step P inputs i d0 st0 rng0]
  rw [List.mem_filter, List.mem_append]
  constructor
  · rintro ⟨_, hcond⟩
    simp only [decide_eq_true_eq] at hcond
    omega
  · intro heq
    have hji : j < i := by omega
    refine ⟨Or.inl ((pending_mem_iff P d0 st0 rng0 inputs h0 j hj s hs i
      (le_of_lt hi)).mpr ⟨hji, by omega⟩), by simpa using heq.symm⟩

/-- Witness for C6: the fixture shipment created on day 1 of the three-day
run (arrival day 5, beyond the run) never arrives within the run and stays
pending through day 3. -/
theorem C6_shipment_lifecycle_witness :
    ((runA.1.getD 1 default).shipments.getD 0 default).shipment_date
        = 0 + (1 : Nat) ∧
      0 + (1 : Nat) + 1 ≤
        ((runA.1.getD 1 default).shipments.getD 0
          default).actual_arrival_date ∧
      (((runA.1.getD 1 default).shipments.getD 0 default) ∈
          (runA.1.getD 2 default).arriving ↔
        (0 + (2 : Nat) : Int) =
          ((runA.1.getD 1 default).shipments.getD 0
            default).actual_arrival_date) ∧
      (((runA.1.getD 1 default).shipments.getD 0 default) ∈
          (stateAfter paramsA 0 stA.1 stA.2
            [inputSell45, inputZero, inputZero] 3).pending_shipments ↔
        (1 < 3 ∧ (0 + (3 : Nat) : Int) ≤
          ((runA.1.getD 1 default).shipments.getD 0
            default).actual_arrival_date)) := by
  exact C6_shipment_lifecycle paramsA 0 stA.1 stA.2
    [inputSell45, inputZero, inputZero] (by decide) 1 2 3 (by decide)
    (by decide) (by decide) _
    (getD_mem_of_lt _ 0 _ (by decide))

end Fulfilment

